import Mathlib

/-!
Shallow embedding of the Hyperledger Avalon (trusted-compute-framework)
singleton enclave manager and WPE handshake requester.

Sources embedded:
* `avalon_enclave_manager/singleton/enclave_manager.py`
  (`EnclaveManager.manager_on_boot`, `EnclaveManager.process_work_order_by_id`,
  `EnclaveManager.__update_receipt`, `validate_request`).
* `avalon_enclave_manager/wpe/wpe_requester.py`
  (`get_unique_verification_key`, `register_wo_processor`,
  `preprocess_work_order`, `_verify_res_signature`).
* `avalon_enclave_manager/wpe/wpe_enclave_manager.py`
  (`WorkOrderProcessorEnclaveManager._create_signup_data`).

The external key-value store (lmdb via `kv_helper`) is modelled as in-memory
association lists, one per table, with `set`/`get`/`remove`/`lookup`
semantics.  Opaque JSON payloads are modelled by the observations the
embedded code actually makes of them (`JVal`, `RawStr`, `RUStr`).  Python
exceptions that escape the embedded functions are modelled with
`Except Unit`; the store state reached at the raise point is carried along,
because the external store's mutations are durable.
-/

namespace Avalon

/-- Association-list lookup, first match wins (models `kv_helper.get`). -/
def alGet {α : Type} : List (String × α) → String → Option α
  | [], _ => none
  | p :: t, k => if p.1 = k then some p.2 else alGet t k

/-- Association-list removal of a key (models `kv_helper.remove`). -/
def alRemove {α : Type} : List (String × α) → String → List (String × α)
  | [], _ => []
  | p :: t, k => if p.1 = k then alRemove t k else p :: alRemove t k

/-- Association-list update (models `kv_helper.set`): a single value per
key. -/
def alSet {α : Type} (l : List (String × α)) (k : String) (v : α) :
    List (String × α) :=
  alRemove l k ++ [(k, v)]

/-- The observations the manager makes of a parsed JSON work-order response:
key membership of `"Response"`/`"error"` and the two status codes read from
them (`resp["Response"]["Status"]`, `resp["error"]["code"]`). -/
structure JVal where
  hasResponse : Bool
  responseStatus : Int
  hasError : Bool
  errorCode : Int
deriving DecidableEq, Repr

/-- An opaque stored string: either it parses as JSON (`json.loads`
succeeds, yielding the observations `v`) or it does not (`jbad`).
`errSub` records whether the Python substring test `"error" in s`
succeeds on the raw string, which `__update_receipt` performs when it is
handed a raw string by the boot flow. -/
inductive RawStr where
  | jgood (v : JVal) (errSub : Bool)
  | jbad (errSub : Bool)
deriving DecidableEq, Repr

/-- Modelled from the spec: a signed receipt update record as built by
`WorkOrderReceiptRequest.update_receipt` (avalon_sdk, not under src/); the
spec says it carries the requested update type, the payload it attests to
and a signature.  Only the `updateType` field is ever read back by the
embedded code. -/
structure ReceiptUpdate where
  updateType : Nat
  workOrderId : String
deriving DecidableEq, Repr

/-- Contents of the `wo-receipt-updates` table: either a JSON list of
receipt updates (what this code itself writes) or an unparsable value. -/
inductive RUStr where
  | ugood (updates : List ReceiptUpdate)
  | ubad
deriving DecidableEq, Repr

/-- The response argument handed to `__update_receipt`: the steady-state
flow passes the parsed dict (`wo_resp`), the boot flow passes the raw
response string (`wo_json_resp`). -/
inductive RArg where
  | dict (v : JVal)
  | str (s : RawStr)
deriving DecidableEq, Repr

/-- Modelled from the spec: the numeric value of
`WorkOrderStatus.PENDING` (`error_code.error_status`, not under src/).
Only its distinctness from other codes matters here. -/
def pendingCode : Int := 5

/-- Modelled from the spec: the numeric value of `WorkOrderStatus.FAILED`
compared against `resp["Response"]["Status"]`. -/
def failedStatus : Int := 1

/-- Modelled from the spec: `ReceiptCreateStatus.COMPLETED.value`. -/
def rcCompleted : Nat := 1

/-- Modelled from the spec: `ReceiptCreateStatus.PROCESSED.value`. -/
def rcProcessed : Nat := 2

/-- Modelled from the spec: `ReceiptCreateStatus.FAILED.value`. -/
def rcFailed : Nat := 3

/-- The external key-value store: one association list per table used by
the enclave manager (`workers`, `wo-requests`, `wo-scheduled`,
`wo-processing`, `wo-responses`, `wo-processed`, `wo-receipts`,
`wo-receipt-updates`). -/
structure Store where
  workers : List (String × String)
  requests : List (String × RawStr)
  scheduled : List (String × String)
  processing : List (String × String)
  responses : List (String × RawStr)
  processed : List (String × String)
  receipts : List (String × String)
  receiptUpdates : List (String × RUStr)
deriving DecidableEq, Repr

/-- A store operation, recorded in execution traces of
`process_work_order_by_id` (table name, key). -/
inductive Op where
  | oset (table key : String)
  | oremove (table key : String)
deriving DecidableEq, Repr

/-- Result of running an embedded stateful function: outcome (`Except.error`
models a Python exception escaping the function), the store state reached,
and the trace of store mutations performed. -/
structure RunRes (α : Type) where
  out : Except Unit α
  store : Store
  trace : List Op

/-- The classification step of `EnclaveManager.__update_receipt`:
`if "error" in wo_json_resp and wo_json_resp["error"]["code"] !=
WorkOrderStatus.PENDING.value` selects FAILED, else PROCESSED.  When the
boot flow hands over a raw string, `"error" in s` is a substring test and a
hit makes the subsequent subscript `s["error"]` raise `TypeError`
(modelled as `none`). -/
def classify_response (resp : RArg) : Option Nat :=
  match resp with
  | RArg.dict v =>
    some (if v.hasError && !(v.errorCode == pendingCode) then rcFailed
          else rcProcessed)
  | RArg.str (RawStr.jgood _ es) =>
    if es then none else some rcProcessed
  | RArg.str (RawStr.jbad es) =>
    if es then none else some rcProcessed

/-- Modelled from the spec: building the signed update record
(`WorkOrderReceiptRequest().update_receipt(wo_id, update_type, resp,
private_key)`, avalon_sdk, not under src/). -/
def mk_receipt_update (woId : String) (ty : Nat) : ReceiptUpdate :=
  { updateType := ty, workOrderId := woId }

/-- Embedding of `EnclaveManager.__update_receipt` (enclave_manager.py lines 290-346).
No-op when no receipt exists (Python truthiness also skips an empty
string).  Classifies the response, reads the previous update list
(`json.loads` failure and the `lst[len(lst)-1]` IndexError on an empty
list are modelled as exceptions), refuses the append when the last update
is COMPLETED, otherwise appends and persists. -/
def update_receipt (st : Store) (woId : String) (resp : RArg) :
    RunRes Unit :=
  match alGet st.receipts woId with
  | none => ⟨Except.ok (), st, []⟩
  | some receipt_entry =>
    if receipt_entry = "" then ⟨Except.ok (), st, []⟩
    else
      match classify_response resp with
      | none => ⟨Except.error (), st, []⟩
      | some update_type =>
        let wo_receipt := mk_receipt_update woId update_type
        match alGet st.receiptUpdates woId with
        | none =>
          let ru := alSet st.receiptUpdates woId (RUStr.ugood [wo_receipt])
          ⟨Except.ok (), { st with receiptUpdates := ru },
           [Op.oset "wo-receipt-updates" woId]⟩
        | some RUStr.ubad => ⟨Except.error (), st, []⟩
        | some (RUStr.ugood prev) =>
          match prev.getLast? with
          | none => ⟨Except.error (), st, []⟩
          | some last_receipt =>
            if last_receipt.updateType = rcCompleted then
              ⟨Except.ok (), st, []⟩
            else
              let ru := alSet st.receiptUpdates woId
                (RUStr.ugood (prev ++ [wo_receipt]))
              ⟨Except.ok (), { st with receiptUpdates := ru },
               [Op.oset "wo-receipt-updates" woId]⟩

/-- The terminal writes shared by the FAILED and SUCCESS paths of
`process_work_order_by_id`: set `wo-processed`, set `wo-responses`,
remove `wo-processing`. -/
def finish_tables (st : Store) (woId status : String) (respStr : RawStr) :
    Store :=
  { st with
    processed := alSet st.processed woId status,
    responses := alSet st.responses woId respStr,
    processing := alRemove st.processing woId }

/-- Trace of the terminal writes of `process_work_order_by_id`. -/
def finish_trace (woId : String) : List Op :=
  [Op.oset "wo-processed" woId, Op.oset "wo-responses" woId,
   Op.oremove "wo-processing" woId]

/-- The tail of `process_work_order_by_id` after the request entry was
found (enclave_manager.py lines 234-288): re-set the `wo-processing`
marker, remove `wo-scheduled`, validate the request
(`validate_request` = `json.loads` succeeds).  On validation failure the
source assigns to the undefined name `wo_response` (line 250), raising
`NameError` before any table is written.  Otherwise execute
(`_execute_work_order`, whose enclave call is the oracle `execO`; the
oracle's `none` models the `wo_response`-undefined `NameError` of its
exception handler), update the receipt with the parsed dict, then write
the terminal FAILED or SUCCESS outcome. -/
def pwo_after_claim (execO : Option (JVal × Bool)) (st1 : Store)
    (woId : String) (req : RawStr) : RunRes (Option JVal) :=
  let st2 : Store :=
    { st1 with processing := alSet st1.processing woId "PROCESSING" }
  let st3 : Store := { st2 with scheduled := alRemove st2.scheduled woId }
  let t3 : List Op :=
    [Op.oset "wo-processing" woId, Op.oremove "wo-scheduled" woId]
  match req with
  | RawStr.jbad _ => ⟨Except.error (), st3, t3⟩
  | RawStr.jgood _ _ =>
    match execO with
    | none => ⟨Except.error (), st3, t3⟩
    | some (v, es) =>
      let ur := update_receipt st3 woId (RArg.dict v)
      match ur.out with
      | Except.error _ => ⟨Except.error (), ur.store, t3 ++ ur.trace⟩
      | Except.ok _ =>
        if v.hasResponse && v.responseStatus == failedStatus then
          ⟨Except.ok none,
           finish_tables ur.store woId "FAILED" (RawStr.jgood v es),
           t3 ++ ur.trace ++ finish_trace woId⟩
        else
          ⟨Except.ok (some v),
           finish_tables ur.store woId "SUCCESS" (RawStr.jgood v es),
           t3 ++ ur.trace ++ finish_trace woId⟩

/-- Embedding of `EnclaveManager.process_work_order_by_id` (enclave_manager.py lines
208-288).  Sets the `wo-processing` marker, looks up `wo-requests`; when
absent removes the marker and returns `None`; otherwise continues with
`pwo_after_claim`. -/
def process_work_order_by_id (execO : Option (JVal × Bool)) (st0 : Store)
    (woId : String) : RunRes (Option JVal) :=
  let st1 : Store :=
    { st0 with processing := alSet st0.processing woId "PROCESSING" }
  match alGet st1.requests woId with
  | none =>
    ⟨Except.ok none,
     { st1 with processing := alRemove st1.processing woId },
     [Op.oset "wo-processing" woId, Op.oremove "wo-processing" woId]⟩
  | some req =>
    let r := pwo_after_claim execO st1 woId req
    ⟨r.out, r.store, Op.oset "wo-processing" woId :: r.trace⟩

/-- Result of the boot flow: outcome plus the store state reached. -/
structure BootRes where
  out : Except Unit Unit
  store : Store
deriving Repr

/-- The guarded terminal-status write of the boot sweep:
`if wo_processed is None: kv_helper.set("wo-processed", wo, status)`,
where `wo_processed` is the value read at the start of the iteration. -/
def mark_if_unset (st : Store) (wo status : String)
    (wo_processed : Option String) : Store :=
  if wo_processed = none then
    { st with processed := alSet st.processed wo status }
  else st

/-- The write `kv_helper.remove("wo-processing", wo)`. -/
def remove_processing (st : Store) (wo : String) : Store :=
  { st with processing := alRemove st.processing wo }

/-- The write `kv_helper.set("wo-scheduled", wo, SCHEDULED)`. -/
def set_scheduled (st : Store) (wo : String) : Store :=
  { st with scheduled := alSet st.scheduled wo "SCHEDULED" }

/-- One iteration of the `wo-processing` sweep of
`EnclaveManager.manager_on_boot` (enclave_manager.py lines 108-157).
Reads `wo-responses` and `wo-processed` for the id; a present but
unparsable response or a FAILED response marks `wo-processed` FAILED (only
if unset) and removes the `wo-processing` entry (`continue`).  A
well-formed non-FAILED response updates the receipt when one exists and
marks SUCCESS (if unset).  A missing response puts the id back into
`wo-scheduled`.  Both of the latter paths then delete the id from
`wo-processing` (line 157). -/
def boot_step (st : Store) (wo : String) : BootRes :=
  let wo_json_resp := alGet st.responses wo
  let wo_processed := alGet st.processed wo
  match wo_json_resp with
  | some (RawStr.jbad _) =>
    ⟨Except.ok (),
     remove_processing (mark_if_unset st wo "FAILED" wo_processed) wo⟩
  | some (RawStr.jgood v es) =>
    if v.hasResponse && v.responseStatus == failedStatus then
      ⟨Except.ok (),
       remove_processing (mark_if_unset st wo "FAILED" wo_processed) wo⟩
    else
      let ur : RunRes Unit :=
        match alGet st.receipts wo with
        | some wo_receipt =>
          if wo_receipt = "" then ⟨Except.ok (), st, []⟩
          else update_receipt st wo (RArg.str (RawStr.jgood v es))
        | none => ⟨Except.ok (), st, []⟩
      match ur.out with
      | Except.error _ => ⟨Except.error (), ur.store⟩
      | Except.ok _ =>
        ⟨Except.ok (),
         remove_processing (mark_if_unset ur.store wo "SUCCESS"
           wo_processed) wo⟩
  | none =>
    ⟨Except.ok (), remove_processing (set_scheduled st wo) wo⟩

/-- The `for wo in processing_list` loop of `manager_on_boot`: iterate
`boot_step` over the snapshot of `wo-processing` keys; an exception
escaping one step aborts the whole sweep. -/
def boot_sweep (st : Store) : List String → BootRes
  | [] => ⟨Except.ok (), st⟩
  | wo :: rest =>
    let r := boot_step st wo
    match r.out with
    | Except.error e => ⟨Except.error e, r.store⟩
    | Except.ok _ => boot_sweep r.store rest

/-- Embedding of `EnclaveManager.manager_on_boot` (enclave_manager.py lines 75-157).
Clears every entry of the `workers` table, republishes the current worker
identity (`worker_id`, `worker_info` stand for the sha256-keyed identity
and `_create_json_worker` output, both deterministic for the process),
then sweeps the snapshot of `wo-processing` keys; an empty snapshot
returns immediately. -/
def manager_on_boot (worker_id worker_info : String) (st : Store) :
    BootRes :=
  let workers_list := st.workers.map Prod.fst
  let w1 := workers_list.foldl alRemove st.workers
  let st1 : Store := { st with workers := alSet w1 worker_id worker_info }
  let processing_list := st1.processing.map Prod.fst
  if processing_list.isEmpty then ⟨Except.ok (), st1⟩
  else boot_sweep st1 processing_list

/-! ### WPE requester and WPE enclave manager handshake -/

/-- Signature verification status (`error_code.error_status.SignatureStatus`
as observed by `_verify_res_signature`: PASSED or anything else). -/
inductive SigStatus where
  | passed
  | failed
deriving DecidableEq, Repr

/-- Modelled from the spec: the JSON-RPC response returned by the KME
listener transport (`HttpJrpcClient._postmsg`, not under src/): per the
spec a transport failure or malformed reply yields a response without a
usable `result` member rather than an exception.  `result` is the opaque
work-order response passed on to signature verification and decryption. -/
structure JrpcResponse where
  hasResult : Bool
  result : String
deriving DecidableEq, Repr

/-- An outbound JSON-RPC request as assembled by `_get_request_json` plus
the `params` the step attaches. -/
structure RpcRequest where
  method : String
  reqId : Nat
  params : List (String × String)
deriving DecidableEq, Repr

/-- Embedding of `WPERequester._verify_res_signature` (wpe_requester.py lines 216-235):
true exactly when the external verifier returns PASSED.  `sigVerify` is
the external `ClientSignature.verify_signature` oracle. -/
def verify_res_signature (sigVerify : String → String → SigStatus)
    (work_order_res worker_verification_key : String) : Bool :=
  match sigVerify work_order_res worker_verification_key with
  | SigStatus.passed => true
  | SigStatus.failed => false

/-- Embedding of `WPERequester.get_unique_verification_key` (wpe_requester.py lines
49-93), response handling: when the response has a `result` member and its
signature verifies, return the decrypted first data element
(`decryptData` is the external `crypto_utils.decrypted_response` oracle
composed with `[0]["data"]`); otherwise return `None`. -/
def get_unique_verification_key
    (sigVerify : String → String → SigStatus)
    (decryptData : String → String) (response : JrpcResponse)
    (verifying_key : String) : Option String :=
  if response.hasResult then
    if verify_res_signature sigVerify response.result verifying_key then
      some (decryptData response.result)
    else none
  else none

/-- Embedding of `WPERequester.register_wo_processor` (wpe_requester.py lines 95-133),
response handling: same shape as `get_unique_verification_key` but
returning the whole decrypted result. -/
def register_wo_processor
    (sigVerify : String → String → SigStatus)
    (decryptRes : String → String) (response : JrpcResponse)
    (verifying_key : String) : Option String :=
  if response.hasResult then
    if verify_res_signature sigVerify response.result verifying_key then
      some (decryptRes response.result)
    else none
  else none

/-- Embedding of `WPERequester.preprocess_work_order` (wpe_requester.py lines 135-157):
builds the `PreProcessWorkOrder` request, posts it (`post` is the
transport oracle) and — response handling being unimplemented in the
source — returns `None` unconditionally.  The first component is the
request actually posted, the second the value returned to the caller. -/
def preprocess_work_order (post : RpcRequest → JrpcResponse) (reqId : Nat)
    (wo_request encryption_key verifying_key : String) :
    RpcRequest × Option String :=
  let json_rpc_request : RpcRequest :=
    { method := "PreProcessWorkOrder", reqId := reqId,
      params := [("wo_request", wo_request),
                 ("encryption_key", encryption_key)] }
  let response := post json_rpc_request
  (json_rpc_request, (fun _ => none) response)

/-- The usable signup output of `_create_signup_data` (only the unique
verification key matters to the embedding). -/
structure SignupData where
  verification_key : String
deriving DecidableEq, Repr

/-- Helper for `pySplitSpace`: walk the characters, cutting at every
single space and keeping empty pieces, like Python `str.split(' ')`. -/
def splitSpaceAux : List Char → List Char → List String
  | [], acc => [String.mk acc.reverse]
  | c :: rest, acc =>
    if c = ' ' then String.mk acc.reverse :: splitSpaceAux rest []
    else splitSpaceAux rest (c :: acc)

/-- Python `response.split(' ')`: split on each single space, keeping
empty pieces (structurally recursive, so concrete instances evaluate). -/
def pySplitSpace (s : String) : List String :=
  splitSpaceAux s.data []

/-- Embedding of `WorkOrderProcessorEnclaveManager._create_signup_data`
(wpe_enclave_manager.py lines 55-97), from the point where the requester
response is in hand: a `None` response returns `None`; otherwise the
response is split on a space, elements 1 and 2 are taken (an out-of-range
index raises, modelled as `Except.error`), the local trust anchor
(`SignupInfoWPE.VerifyUniqueIdSignature`, oracle `verifyUniqueIdSig`)
checks the key's signature and any non-zero result returns `None`; only
then is signup data built. -/
def create_signup_data (uidResponse : Option String)
    (verifyUniqueIdSig : String → String → Int) :
    Except Unit (Option SignupData) :=
  match uidResponse with
  | none => Except.ok none
  | some response =>
    let parts := pySplitSpace response
    match parts[1]?, parts[2]? with
    | some uvk, some uvkSig =>
      if verifyUniqueIdSig uvk uvkSig ≠ 0 then Except.ok none
      else Except.ok (some { verification_key := uvk })
    | some _, none => Except.error ()
    | none, _ => Except.error ()

/-- Modelled from the spec: the caller of `_create_signup_data`
(`wpe_common` helper, not under src/) "must treat a null/absent result as
total step failure and halt the handshake"; registration
(`RegisterWorkOrderProcessor`) proceeds only when signup produced usable
data. -/
def proceeds_to_registration
    (signup : Except Unit (Option SignupData)) : Bool :=
  match signup with
  | Except.ok (some _) => true
  | _ => false

/-! ### Concrete stores and oracles used to exercise the theorems -/

/-- A store holding one well-formed scheduled work order `"a"`. -/
def cStore1 : Store :=
  { workers := [], requests := [("a", RawStr.jgood ⟨true, 0, false, 0⟩ false)],
    scheduled := [("a", "SCHEDULED")], processing := [], responses := [],
    processed := [], receipts := [], receiptUpdates := [] }

/-- A successful enclave execution outcome for the oracle of
`process_work_order_by_id`. -/
def cExec : Option (JVal × Bool) := some (⟨true, 0, false, 0⟩, false)

/-- A store whose work order `"r1"` has a receipt and a COMPLETED last
receipt update. -/
def c2Store : Store :=
  { workers := [], requests := [], scheduled := [], processing := [],
    responses := [], processed := [], receipts := [("r1", "rcpt")],
    receiptUpdates := [("r1", RUStr.ugood [⟨rcCompleted, "r1"⟩])] }

/-- A store with a scheduled work order `"wo2"` whose stored request
payload is unparsable (spec scenario B). -/
def c4Store : Store :=
  { workers := [], requests := [("wo2", RawStr.jbad false)],
    scheduled := [("wo2", "SCHEDULED")], processing := [], responses := [],
    processed := [], receipts := [], receiptUpdates := [] }

/-- A store crashed mid-flight: `"wo3"` is in `wo-processing` with no
response recorded (spec scenario C). -/
def c6Store : Store :=
  { workers := [], requests := [], scheduled := [],
    processing := [("wo3", "PROCESSING")], responses := [],
    processed := [], receipts := [], receiptUpdates := [] }

/-- An empty store, as a boot-recovery input. -/
def c3Store : Store :=
  { workers := [], requests := [], scheduled := [], processing := [],
    responses := [], processed := [], receipts := [], receiptUpdates := [] }

/-- The store produced by running boot recovery on `c3Store`. -/
def c3Store' : Store :=
  { workers := [("w", "i")], requests := [], scheduled := [],
    processing := [], responses := [], processed := [], receipts := [],
    receiptUpdates := [] }

/-- A signature-verification oracle that always rejects. -/
def cSigFail : String → String → SigStatus := fun _ _ => SigStatus.failed

/-- A signature-verification oracle that always accepts. -/
def cSigPass : String → String → SigStatus := fun _ _ => SigStatus.passed

/-- A decryption oracle (identity on the opaque result string). -/
def cDec : String → String := fun s => s

/-- A decryption oracle yielding a space-delimited
result/key/signature triple, as the KME step expects. -/
def cDec3 : String → String := fun _ => "ok key sig"

/-- A KME response carrying a result member. -/
def cResp : JrpcResponse := { hasResult := true, result := "res" }

/-- A KME response without a result member (transport/step failure). -/
def cRespNoResult : JrpcResponse := { hasResult := false, result := "" }

/-- A trust-anchor oracle that always reports verification failure. -/
def cVerifyBad : String → String → Int := fun _ _ => 1

/-- A transport oracle for `preprocess_work_order`. -/
def cPost : RpcRequest → JrpcResponse := fun _ => cResp

/-! ### Association-list lemmas -/

theorem alGet_nil {α : Type} (k : String) :
    alGet ([] : List (String × α)) k = none := rfl

theorem alGet_alRemove_self {α : Type} (l : List (String × α))
    (k : String) : alGet (alRemove l k) k = none := by
  induction l with
  | nil => rfl
  | cons p t ih =>
    by_cases h : p.1 = k
    · simpa [alRemove, h] using ih
    · simpa [alRemove, alGet, h] using ih

theorem alGet_alRemove_ne {α : Type} (l : List (String × α))
    (k k' : String) (h : k' ≠ k) :
    alGet (alRemove l k) k' = alGet l k' := by
  induction l with
  | nil => rfl
  | cons p t ih =>
    by_cases hp : p.1 = k
    · have hp' : ¬(p.1 = k') := by rw [hp]; exact Ne.symm h
      simp only [alRemove, if_pos hp]
      rw [ih]
      simp [alGet, hp']
    · by_cases hp' : p.1 = k'
      · simp [alRemove, alGet, hp, hp', h]
      · simpa [alRemove, alGet, hp, hp'] using ih

theorem alGet_append_left {α : Type} (l₁ l₂ : List (String × α))
    (k : String) (v : α) (h : alGet l₁ k = some v) :
    alGet (l₁ ++ l₂) k = some v := by
  induction l₁ with
  | nil => exact absurd h (by simp [alGet])
  | cons p t ih =>
    by_cases hp : p.1 = k
    · simp only [alGet, if_pos hp] at h
      simp [alGet, hp, h]
    · simp only [alGet, if_neg hp] at h
      simpa [alGet, hp] using ih h

theorem alGet_append_right {α : Type} (l₁ l₂ : List (String × α))
    (k : String) (h : alGet l₁ k = none) :
    alGet (l₁ ++ l₂) k = alGet l₂ k := by
  induction l₁ with
  | nil => rfl
  | cons p t ih =>
    by_cases hp : p.1 = k
    · simp [alGet, if_pos hp] at h
    · simp only [alGet, if_neg hp] at h
      simpa [alGet, hp] using ih h

theorem alGet_alSet_self {α : Type} (l : List (String × α)) (k : String)
    (v : α) : alGet (alSet l k v) k = some v := by
  rw [alSet, alGet_append_right _ _ _ (alGet_alRemove_self l k)]
  simp [alGet]

theorem alGet_alSet_ne {α : Type} (l : List (String × α)) (k k' : String)
    (v : α) (h : k' ≠ k) : alGet (alSet l k v) k' = alGet l k' := by
  rw [alSet]
  cases hl : alGet (alRemove l k) k' with
  | none =>
    rw [alGet_append_right _ _ _ hl]
    rw [alGet_alRemove_ne l k k' h] at hl
    simp [alGet, hl, Ne.symm h]
  | some w =>
    rw [alGet_append_left _ _ _ _ hl]
    rw [alGet_alRemove_ne l k k' h] at hl
    exact hl.symm

theorem alGet_mem_keys {α : Type} (l : List (String × α)) (k : String)
    (v : α) (h : alGet l k = some v) : k ∈ l.map Prod.fst := by
  induction l with
  | nil => exact absurd h (by simp [alGet])
  | cons p t ih =>
    by_cases hp : p.1 = k
    · simp [hp]
    · simp only [alGet, if_neg hp] at h
      simpa using Or.inr (ih h)

theorem mem_alRemove {α : Type} (l : List (String × α)) (k : String)
    (p : String × α) (h : p ∈ alRemove l k) : p ∈ l ∧ ¬(p.1 = k) := by
  induction l with
  | nil => exact absurd h (by simp [alRemove])
  | cons q t ih =>
    by_cases hq : q.1 = k
    · simp only [alRemove, if_pos hq] at h
      have := ih h
      exact ⟨List.mem_cons_of_mem q this.1, this.2⟩
    · simp only [alRemove, if_neg hq, List.mem_cons] at h
      cases h with
      | inl he => exact ⟨by simp [he], he ▸ hq⟩
      | inr ht =>
        have := ih ht
        exact ⟨List.mem_cons_of_mem q this.1, this.2⟩

theorem foldl_alRemove_eq_nil {α : Type} :
    ∀ (keys : List String) (l : List (String × α)),
      (∀ p ∈ l, p.1 ∈ keys) → List.foldl alRemove l keys = [] := by
  intro keys
  induction keys with
  | nil =>
    intro l h
    cases l with
    | nil => rfl
    | cons p t => exact absurd (h p (by simp)) (by simp)
  | cons k ks ih =>
    intro l h
    show List.foldl alRemove (alRemove l k) ks = []
    apply ih
    intro p hp
    have hmem := mem_alRemove l k p hp
    have := h p hmem.1
    simp only [List.mem_cons] at this
    exact this.resolve_left hmem.2

/-! ### Frame lemmas for `__update_receipt` -/

theorem update_receipt_processing (st : Store) (w : String) (r : RArg) :
    ((update_receipt st w r).store).processing = st.processing := by
  unfold update_receipt
  repeat' split
  all_goals rfl

theorem update_receipt_responses (st : Store) (w : String) (r : RArg) :
    ((update_receipt st w r).store).responses = st.responses := by
  unfold update_receipt
  repeat' split
  all_goals rfl

theorem update_receipt_scheduled (st : Store) (w : String) (r : RArg) :
    ((update_receipt st w r).store).scheduled = st.scheduled := by
  unfold update_receipt
  repeat' split
  all_goals rfl

theorem update_receipt_workers (st : Store) (w : String) (r : RArg) :
    ((update_receipt st w r).store).workers = st.workers := by
  unfold update_receipt
  repeat' split
  all_goals rfl

theorem update_receipt_processed (st : Store) (w : String) (r : RArg) :
    ((update_receipt st w r).store).processed = st.processed := by
  unfold update_receipt
  repeat' split
  all_goals rfl

/-- C2: once the stored receipt-update sequence for an id ends in a
COMPLETED update, `__update_receipt` leaves the whole store unchanged for
any response. -/
theorem C2_receipt_frozen (st : Store) (woId : String)
    (l : List ReceiptUpdate) (u : ReceiptUpdate) (resp : RArg)
    (hupd : alGet st.receiptUpdates woId = some (RUStr.ugood l))
    (hlast : l.getLast? = some u) (hty : u.updateType = rcCompleted) :
    (update_receipt st woId resp).store = st := by
  unfold update_receipt
  repeat' split
  all_goals simp_all

/-- Witness for C2 at a concrete frozen receipt. -/
theorem C2_receipt_frozen_witness :
    (update_receipt c2Store "r1" (RArg.dict ⟨false, 0, false, 0⟩)).store =
      c2Store :=
  C2_receipt_frozen c2Store "r1" [⟨rcCompleted, "r1"⟩] ⟨rcCompleted, "r1"⟩
    (RArg.dict ⟨false, 0, false, 0⟩) rfl rfl rfl

/-! ### The steady-state transition -/

theorem pwo_after_claim_ok (execO : Option (JVal × Bool)) (st1 : Store)
    (woId : String) (req : RawStr) (out : Option JVal)
    (hok : (pwo_after_claim execO st1 woId req).out = Except.ok out) :
    alGet ((pwo_after_claim execO st1 woId req).store).processing woId =
      none ∧
    ((alGet ((pwo_after_claim execO st1 woId req).store).processed woId =
        some "SUCCESS" ∨
      alGet ((pwo_after_claim execO st1 woId req).store).processed woId =
        some "FAILED") ∧
     ¬(alGet ((pwo_after_claim execO st1 woId req).store).processed woId =
         some "SUCCESS" ∧
       alGet ((pwo_after_claim execO st1 woId req).store).processed woId =
         some "FAILED")) ∧
    (∃ v es,
      alGet ((pwo_after_claim execO st1 woId req).store).responses woId =
        some (RawStr.jgood v es) ∧
      (alGet ((pwo_after_claim execO st1 woId req).store).processed woId =
          some "FAILED" ↔
        (v.hasResponse = true ∧ v.responseStatus = failedStatus))) := by
  unfold pwo_after_claim at hok ⊢
  cases req with
  | jbad es => simp at hok
  | jgood v0 es0 =>
    cases execO with
    | none => simp at hok
    | some pr =>
      obtain ⟨v, es⟩ := pr
      dsimp only at hok ⊢
      generalize hur :
        update_receipt
          { { st1 with
                processing := alSet st1.processing woId "PROCESSING" } with
            scheduled :=
              alRemove
                ({ st1 with
                     processing :=
                       alSet st1.processing woId "PROCESSING" }).scheduled
                woId } woId (RArg.dict v) = ur at hok ⊢
      obtain ⟨uo, ust, utr⟩ := ur
      cases uo with
      | error e => simp at hok
      | ok u =>
        by_cases hc : (v.hasResponse && v.responseStatus == failedStatus) =
          true
        · rw [if_pos hc] at hok ⊢
          simp only [Bool.and_eq_true, beq_iff_eq] at hc
          dsimp only [finish_tables]
          refine ⟨alGet_alRemove_self _ _, ⟨Or.inr ?_, ?_⟩, v, es, ?_, ?_⟩
          · exact alGet_alSet_self _ _ _
          · rw [alGet_alSet_self]
            intro hcontra
            exact absurd (hcontra.1.symm.trans hcontra.2) (by simp)
          · exact alGet_alSet_self _ _ _
          · rw [alGet_alSet_self]
            simp [hc]
        · rw [if_neg hc] at hok ⊢
          simp only [Bool.and_eq_true, beq_iff_eq, not_and] at hc
          dsimp only [finish_tables]
          refine ⟨alGet_alRemove_self _ _, ⟨Or.inl ?_, ?_⟩, v, es, ?_, ?_⟩
          · exact alGet_alSet_self _ _ _
          · rw [alGet_alSet_self]
            intro hcontra
            exact absurd (hcontra.1.symm.trans hcontra.2) (by simp)
          · exact alGet_alSet_self _ _ _
          · rw [alGet_alSet_self]
            constructor
            · intro hcontra
              exact absurd hcontra (by simp)
            · intro hcontra
              exact absurd hcontra.2 (hc hcontra.1)

/-- C1: every id claimed by `process_work_order_by_id` (the `wo-processing`
marker was written and a `wo-requests` entry was found) that runs to a
normal return ends with the marker removed, exactly one terminal
`wo-processed` status among SUCCESS/FAILED, and a `wo-responses` entry
whose failure flag matches that terminal status. -/
theorem C1_claimed_terminal (execO : Option (JVal × Bool)) (st : Store)
    (woId : String) (req : RawStr) (out : Option JVal)
    (hreq : alGet st.requests woId = some req)
    (hok : (process_work_order_by_id execO st woId).out = Except.ok out) :
    alGet ((process_work_order_by_id execO st woId).store).processing
      woId = none ∧
    ((alGet ((process_work_order_by_id execO st woId).store).processed
        woId = some "SUCCESS" ∨
      alGet ((process_work_order_by_id execO st woId).store).processed
        woId = some "FAILED") ∧
     ¬(alGet ((process_work_order_by_id execO st woId).store).processed
         woId = some "SUCCESS" ∧
       alGet ((process_work_order_by_id execO st woId).store).processed
         woId = some "FAILED")) ∧
    (∃ v es,
      alGet ((process_work_order_by_id execO st woId).store).responses
        woId = some (RawStr.jgood v es) ∧
      (alGet ((process_work_order_by_id execO st woId).store).processed
          woId = some "FAILED" ↔
        (v.hasResponse = true ∧ v.responseStatus = failedStatus))) := by
  unfold process_work_order_by_id at hok ⊢
  dsimp only at hok ⊢
  rw [hreq] at hok ⊢
  exact pwo_after_claim_ok execO _ woId req out hok

/-- Witness for C1: a concrete well-formed work order runs to SUCCESS. -/
theorem C1_claimed_terminal_witness :
    alGet ((process_work_order_by_id cExec cStore1 "a").store).processing
      "a" = none ∧
    ((alGet ((process_work_order_by_id cExec cStore1 "a").store).processed
        "a" = some "SUCCESS" ∨
      alGet ((process_work_order_by_id cExec cStore1 "a").store).processed
        "a" = some "FAILED") ∧
     ¬(alGet ((process_work_order_by_id cExec cStore1 "a").store).processed
         "a" = some "SUCCESS" ∧
       alGet ((process_work_order_by_id cExec cStore1 "a").store).processed
         "a" = some "FAILED")) ∧
    (∃ v es,
      alGet ((process_work_order_by_id cExec cStore1 "a").store).responses
        "a" = some (RawStr.jgood v es) ∧
      (alGet ((process_work_order_by_id cExec cStore1 "a").store).processed
          "a" = some "FAILED" ↔
        (v.hasResponse = true ∧ v.responseStatus = failedStatus))) :=
  C1_claimed_terminal cExec cStore1 "a" (RawStr.jgood ⟨true, 0, false, 0⟩
    false) (some ⟨true, 0, false, 0⟩) rfl rfl

theorem process_trace_head (execO : Option (JVal × Bool)) (st : Store)
    (woId : String) :
    ∃ t, (process_work_order_by_id execO st woId).trace =
      Op.oset "wo-processing" woId :: t := by
  unfold process_work_order_by_id
  dsimp only
  cases h : alGet st.requests woId with
  | none => exact ⟨_, rfl⟩
  | some req => exact ⟨_, rfl⟩

/-- C7: in every execution of `process_work_order_by_id`, any removal of
the id from `wo-scheduled` in the operation trace is preceded by a write
of the `wo-processing` marker for that id. -/
theorem C7_processing_before_unschedule (execO : Option (JVal × Bool))
    (st : Store) (woId : String) (pre post : List Op)
    (h : (process_work_order_by_id execO st woId).trace =
      pre ++ Op.oremove "wo-scheduled" woId :: post) :
    Op.oset "wo-processing" woId ∈ pre := by
  obtain ⟨t, ht⟩ := process_trace_head execO st woId
  rw [ht] at h
  cases pre with
  | nil => simp at h
  | cons a as =>
    rw [List.cons_append] at h
    injection h with h1 h2
    rw [← h1]
    exact List.mem_cons_self _ _

/-- Witness for C7 on a concrete execution trace. -/
theorem C7_processing_before_unschedule_witness :
    Op.oset "wo-processing" "a" ∈
      [Op.oset "wo-processing" "a", Op.oset "wo-processing" "a"] :=
  C7_processing_before_unschedule cExec cStore1 "a"
    [Op.oset "wo-processing" "a", Op.oset "wo-processing" "a"]
    [Op.oset "wo-processed" "a", Op.oset "wo-responses" "a",
     Op.oremove "wo-processing" "a"] rfl

/-- C4 evidence: on a scheduled work order whose stored request is
unparsable, `process_work_order_by_id` raises (the source assigns to the
undefined name `wo_response`, a `NameError`) instead of recording the
FAILED outcome: no `wo-processed` or `wo-responses` entry is written, and
the id stays in `wo-processing` while already removed from
`wo-scheduled`. -/
theorem C4_malformed_request_crashes :
    (process_work_order_by_id none c4Store "wo2").out = Except.error () ∧
    alGet ((process_work_order_by_id none c4Store "wo2").store).processed
      "wo2" = none ∧
    alGet ((process_work_order_by_id none c4Store "wo2").store).responses
      "wo2" = none ∧
    alGet ((process_work_order_by_id none c4Store "wo2").store).processing
      "wo2" = some "PROCESSING" ∧
    alGet ((process_work_order_by_id none c4Store "wo2").store).scheduled
      "wo2" = none :=
  ⟨rfl, rfl, rfl, rfl, rfl⟩

/-! ### WPE handshake claims -/

/-- C10: `preprocess_work_order` posts the `PreProcessWorkOrder` request
and returns `None` to its caller unconditionally, whatever the transport
answers. -/
theorem C10_preprocess_always_none (post : RpcRequest → JrpcResponse)
    (reqId : Nat) (wo_request encryption_key verifying_key : String) :
    (preprocess_work_order post reqId wo_request encryption_key
      verifying_key).2 = none ∧
    (preprocess_work_order post reqId wo_request encryption_key
      verifying_key).1.method = "PreProcessWorkOrder" :=
  ⟨rfl, rfl⟩

/-- C9: a response without a `result` member, or one whose signature does
not verify, makes every handshake step of the requester return `None`
(the embedded steps are total functions: no exception crosses the client
boundary). -/
theorem C9_steps_fail_closed (sigVerify : String → String → SigStatus)
    (dec1 dec2 : String → String) (post : RpcRequest → JrpcResponse)
    (reqId : Nat) (woReq encKey : String) (resp : JrpcResponse)
    (vk : String)
    (h : resp.hasResult = false ∨
      sigVerify resp.result vk = SigStatus.failed) :
    get_unique_verification_key sigVerify dec1 resp vk = none ∧
    register_wo_processor sigVerify dec2 resp vk = none ∧
    (preprocess_work_order post reqId woReq encKey vk).2 = none := by
  rcases h with h | h
  · simp [get_unique_verification_key, register_wo_processor,
      preprocess_work_order, h]
  · cases hr : resp.hasResult with
    | false =>
      simp [get_unique_verification_key, register_wo_processor,
        preprocess_work_order, hr]
    | true =>
      simp [get_unique_verification_key, register_wo_processor,
        preprocess_work_order, hr, verify_res_signature, h]

/-- Witness for C9 at a concrete result-less response. -/
theorem C9_steps_fail_closed_witness :
    get_unique_verification_key cSigFail cDec cRespNoResult "vk" = none ∧
    register_wo_processor cSigFail cDec cRespNoResult "vk" = none ∧
    (preprocess_work_order cPost 7 "req" "ek" "vk").2 = none :=
  C9_steps_fail_closed cSigFail cDec cDec cPost 7 "req" "ek"
    cRespNoResult "vk" (Or.inl rfl)

/-- C8: a failed response-signature check makes the
`GetUniqueVerificationKey` step return `None`; and whenever the step
yielded nothing, or the local trust-anchor check returns non-zero on the
verification key / signature pair extracted from the received response,
`_create_signup_data` produces no usable signup data and registration does
not proceed. -/
theorem C8_unverified_key_no_registration
    (sigVerify : String → String → SigStatus) (dec : String → String)
    (resp : JrpcResponse) (vk : String) (verify : String → String → Int)
    (h : sigVerify resp.result vk = SigStatus.failed ∨
      (∃ r uvk uvkSig,
        get_unique_verification_key sigVerify dec resp vk = some r ∧
        (pySplitSpace r)[1]? = some uvk ∧
        (pySplitSpace r)[2]? = some uvkSig ∧
        verify uvk uvkSig ≠ 0)) :
    (sigVerify resp.result vk = SigStatus.failed →
      get_unique_verification_key sigVerify dec resp vk = none) ∧
    (∀ sd, create_signup_data
        (get_unique_verification_key sigVerify dec resp vk) verify ≠
      Except.ok (some sd)) ∧
    proceeds_to_registration (create_signup_data
      (get_unique_verification_key sigVerify dec resp vk) verify) =
      false := by
  have hfail : sigVerify resp.result vk = SigStatus.failed →
      get_unique_verification_key sigVerify dec resp vk = none := by
    intro hf
    cases hr : resp.hasResult with
    | false => simp [get_unique_verification_key, hr]
    | true =>
      simp [get_unique_verification_key, hr, verify_res_signature, hf]
  refine ⟨hfail, ?_⟩
  have hmain : ∀ sd, create_signup_data
      (get_unique_verification_key sigVerify dec resp vk) verify ≠
        Except.ok (some sd) := by
    rcases h with hf | ⟨r, uvk, uvkSig, hg, h1, h2, hv⟩
    · rw [hfail hf]
      intro sd
      simp [create_signup_data]
    · rw [hg]
      intro sd
      unfold create_signup_data
      simp [h1, h2, hv]
  refine ⟨hmain, ?_⟩
  cases hc : create_signup_data
      (get_unique_verification_key sigVerify dec resp vk) verify with
  | error e => rfl
  | ok o =>
    cases o with
    | none => rfl
    | some sd => exact absurd hc (hmain sd)

/-- Witness for C8 at a concrete run whose response signature verifies
but whose received key/signature pair the trust anchor rejects. -/
theorem C8_unverified_key_no_registration_witness :
    (cSigPass cResp.result "vk" = SigStatus.failed →
      get_unique_verification_key cSigPass cDec3 cResp "vk" = none) ∧
    (∀ sd, create_signup_data
        (get_unique_verification_key cSigPass cDec3 cResp "vk")
        cVerifyBad ≠ Except.ok (some sd)) ∧
    proceeds_to_registration (create_signup_data
      (get_unique_verification_key cSigPass cDec3 cResp "vk")
      cVerifyBad) = false :=
  C8_unverified_key_no_registration cSigPass cDec3 cResp "vk" cVerifyBad
    (Or.inr ⟨"ok key sig", "key", "sig", rfl, rfl, rfl, by decide⟩)

/-! ### Boot-recovery lemmas -/

theorem mark_if_unset_workers (st : Store) (wo status : String)
    (p : Option String) :
    (mark_if_unset st wo status p).workers = st.workers := by
  unfold mark_if_unset
  split <;> rfl

theorem mark_if_unset_responses (st : Store) (wo status : String)
    (p : Option String) :
    (mark_if_unset st wo status p).responses = st.responses := by
  unfold mark_if_unset
  split <;> rfl

theorem mark_if_unset_processing (st : Store) (wo status : String)
    (p : Option String) :
    (mark_if_unset st wo status p).processing = st.processing := by
  unfold mark_if_unset
  split <;> rfl

theorem mark_if_unset_scheduled (st : Store) (wo status : String)
    (p : Option String) :
    (mark_if_unset st wo status p).scheduled = st.scheduled := by
  unfold mark_if_unset
  split <;> rfl

theorem boot_step_workers (st : Store) (wo : String) :
    ((boot_step st wo).store).workers = st.workers := by
  unfold boot_step
  dsimp only
  cases hr : alGet st.responses wo with
  | none => simp [remove_processing, set_scheduled]
  | some rs =>
    cases rs with
    | jbad es => simp [remove_processing, mark_if_unset_workers]
    | jgood v es =>
      dsimp only
      by_cases hc : (v.hasResponse && v.responseStatus == failedStatus) =
        true
      · rw [if_pos hc]
        simp [remove_processing, mark_if_unset_workers]
      · rw [if_neg hc]
        cases hrec : alGet st.receipts wo with
        | none => simp [remove_processing, mark_if_unset_workers]
        | some r =>
          dsimp only
          by_cases hre : r = ""
          · rw [if_pos hre]
            simp [remove_processing, mark_if_unset_workers]
          · rw [if_neg hre]
            cases hout :
                (update_receipt st wo
                  (RArg.str (RawStr.jgood v es))).out with
            | error e =>
              simp [update_receipt_workers]
            | ok u =>
              simp [remove_processing, mark_if_unset_workers,
                update_receipt_workers]

theorem boot_step_responses (st : Store) (wo : String) :
    ((boot_step st wo).store).responses = st.responses := by
  unfold boot_step
  dsimp only
  cases hr : alGet st.responses wo with
  | none => simp [remove_processing, set_scheduled]
  | some rs =>
    cases rs with
    | jbad es => simp [remove_processing, mark_if_unset_responses]
    | jgood v es =>
      dsimp only
      by_cases hc : (v.hasResponse && v.responseStatus == failedStatus) =
        true
      · rw [if_pos hc]
        simp [remove_processing, mark_if_unset_responses]
      · rw [if_neg hc]
        cases hrec : alGet st.receipts wo with
        | none => simp [remove_processing, mark_if_unset_responses]
        | some r =>
          dsimp only
          by_cases hre : r = ""
          · rw [if_pos hre]
            simp [remove_processing, mark_if_unset_responses]
          · rw [if_neg hre]
            cases hout :
                (update_receipt st wo
                  (RArg.str (RawStr.jgood v es))).out with
            | error e =>
              simp [update_receipt_responses]
            | ok u =>
              simp [remove_processing, mark_if_unset_responses,
                update_receipt_responses]

theorem boot_step_processing (st : Store) (wo : String) :
    ((boot_step st wo).store).processing = alRemove st.processing wo ∨
    (boot_step st wo).out = Except.error () := by
  unfold boot_step
  dsimp only
  cases hr : alGet st.responses wo with
  | none => left; simp [remove_processing, set_scheduled]
  | some rs =>
    cases rs with
    | jbad es => left; simp [remove_processing, mark_if_unset_processing]
    | jgood v es =>
      dsimp only
      by_cases hc : (v.hasResponse && v.responseStatus == failedStatus) =
        true
      · rw [if_pos hc]
        left
        simp [remove_processing, mark_if_unset_processing]
      · rw [if_neg hc]
        cases hrec : alGet st.receipts wo with
        | none =>
          left
          simp [remove_processing, mark_if_unset_processing]
        | some r =>
          dsimp only
          by_cases hre : r = ""
          · rw [if_pos hre]
            left
            simp [remove_processing, mark_if_unset_processing]
          · rw [if_neg hre]
            cases hout :
                (update_receipt st wo
                  (RArg.str (RawStr.jgood v es))).out with
            | error e => right; rfl
            | ok u =>
              left
              simp [remove_processing, mark_if_unset_processing,
                update_receipt_processing]

theorem boot_step_sched_pres (st : Store) (wo i : String)
    (h : alGet st.scheduled i = some "SCHEDULED") :
    alGet ((boot_step st wo).store).scheduled i = some "SCHEDULED" := by
  unfold boot_step
  dsimp only
  cases hr : alGet st.responses wo with
  | none =>
    simp only [remove_processing, set_scheduled]
    by_cases hiw : i = wo
    · subst hiw
      simpa using alGet_alSet_self st.scheduled i "SCHEDULED"
    · simpa [alGet_alSet_ne st.scheduled wo i "SCHEDULED" hiw] using h
  | some rs =>
    cases rs with
    | jbad es => simpa [remove_processing, mark_if_unset_scheduled] using h
    | jgood v es =>
      dsimp only
      by_cases hc : (v.hasResponse && v.responseStatus == failedStatus) =
        true
      · rw [if_pos hc]
        simpa [remove_processing, mark_if_unset_scheduled] using h
      · rw [if_neg hc]
        cases hrec : alGet st.receipts wo with
        | none => simpa [remove_processing, mark_if_unset_scheduled] using h
        | some r =>
          dsimp only
          by_cases hre : r = ""
          · rw [if_pos hre]
            simpa [remove_processing, mark_if_unset_scheduled] using h
          · rw [if_neg hre]
            cases hout :
                (update_receipt st wo
                  (RArg.str (RawStr.jgood v es))).out with
            | error e => simpa [update_receipt_scheduled] using h
            | ok u =>
              simpa [remove_processing, mark_if_unset_scheduled,
                update_receipt_scheduled] using h

theorem boot_step_noresp (st : Store) (wo : String)
    (h : alGet st.responses wo = none) :
    (boot_step st wo).out = Except.ok () ∧
    alGet ((boot_step st wo).store).scheduled wo = some "SCHEDULED" ∧
    ((boot_step st wo).store).processing = alRemove st.processing wo := by
  unfold boot_step
  dsimp only
  rw [h]
  refine ⟨rfl, ?_, rfl⟩
  simpa [remove_processing, set_scheduled] using
    alGet_alSet_self st.scheduled wo "SCHEDULED"

theorem boot_sweep_ok_processing :
    ∀ (wos : List String) (st st' : Store),
      boot_sweep st wos = ⟨Except.ok (), st'⟩ →
      st'.processing = List.foldl alRemove st.processing wos := by
  intro wos
  induction wos with
  | nil =>
    intro st st' h
    simp only [boot_sweep, BootRes.mk.injEq, true_and] at h
    rw [← h]
    rfl
  | cons wo rest ih =>
    intro st st' h
    unfold boot_sweep at h
    dsimp only at h
    cases hout : (boot_step st wo).out with
    | error e => rw [hout] at h; simp at h
    | ok u =>
      rw [hout] at h
      have hrec := ih (boot_step st wo).store st' h
      rcases boot_step_processing st wo with hp | hp
      · rw [hrec, hp]; rfl
      · rw [hp] at hout; simp at hout

theorem boot_sweep_workers :
    ∀ (wos : List String) (st st' : Store),
      boot_sweep st wos = ⟨Except.ok (), st'⟩ → st'.workers = st.workers := by
  intro wos
  induction wos with
  | nil =>
    intro st st' h
    simp only [boot_sweep, BootRes.mk.injEq, true_and] at h
    rw [← h]
  | cons wo rest ih =>
    intro st st' h
    unfold boot_sweep at h
    dsimp only at h
    cases hout : (boot_step st wo).out with
    | error e => rw [hout] at h; simp at h
    | ok u =>
      rw [hout] at h
      rw [ih (boot_step st wo).store st' h]
      exact boot_step_workers st wo

theorem boot_sweep_sched_pres :
    ∀ (wos : List String) (st st' : Store) (i : String),
      boot_sweep st wos = ⟨Except.ok (), st'⟩ →
      alGet st.scheduled i = some "SCHEDULED" →
      alGet st'.scheduled i = some "SCHEDULED" := by
  intro wos
  induction wos with
  | nil =>
    intro st st' i h hs
    simp only [boot_sweep, BootRes.mk.injEq, true_and] at h
    rw [← h]
    exact hs
  | cons wo rest ih =>
    intro st st' i h hs
    unfold boot_sweep at h
    dsimp only at h
    cases hout : (boot_step st wo).out with
    | error e => rw [hout] at h; simp at h
    | ok u =>
      rw [hout] at h
      exact ih (boot_step st wo).store st' i h
        (boot_step_sched_pres st wo i hs)

theorem boot_sweep_sets :
    ∀ (wos : List String) (st st' : Store) (i : String),
      boot_sweep st wos = ⟨Except.ok (), st'⟩ → i ∈ wos →
      alGet st.responses i = none →
      alGet st'.scheduled i = some "SCHEDULED" := by
  intro wos
  induction wos with
  | nil => intro st st' i h hmem; exact absurd hmem (by simp)
  | cons wo rest ih =>
    intro st st' i h hmem hresp
    unfold boot_sweep at h
    dsimp only at h
    rcases List.mem_cons.mp hmem with hiw | hir
    · subst hiw
      obtain ⟨h1, h2, h3⟩ := boot_step_noresp st i hresp
      rw [h1] at h
      exact boot_sweep_sched_pres rest (boot_step st i).store st' i h h2
    · cases hout : (boot_step st wo).out with
      | error e => rw [hout] at h; simp at h
      | ok u =>
        rw [hout] at h
        refine ih (boot_step st wo).store st' i h hir ?_
        rw [boot_step_responses st wo]
        exact hresp

theorem manager_on_boot_ok_processing (wid winfo : String)
    (st st' : Store)
    (h : manager_on_boot wid winfo st = ⟨Except.ok (), st'⟩) :
    st'.processing = [] := by
  unfold manager_on_boot at h
  dsimp only at h
  by_cases hemp : (List.map Prod.fst st.processing).isEmpty = true
  · rw [if_pos hemp] at h
    simp only [BootRes.mk.injEq, true_and] at h
    have hnil : st.processing = [] := by
      have := List.isEmpty_iff.mp hemp
      exact List.map_eq_nil_iff.mp this
    rw [← h]
    exact hnil
  · rw [if_neg hemp] at h
    have := boot_sweep_ok_processing (List.map Prod.fst st.processing) _
      st' h
    rw [this]
    exact foldl_alRemove_eq_nil _ _
      (fun p hp => List.mem_map_of_mem Prod.fst hp)

theorem manager_on_boot_ok_workers (wid winfo : String) (st st' : Store)
    (h : manager_on_boot wid winfo st = ⟨Except.ok (), st'⟩) :
    st'.workers = [(wid, winfo)] := by
  have hclear : List.foldl alRemove st.workers
      (List.map Prod.fst st.workers) = [] :=
    foldl_alRemove_eq_nil _ _ (fun p hp => List.mem_map_of_mem Prod.fst hp)
  unfold manager_on_boot at h
  dsimp only at h
  rw [hclear] at h
  by_cases hemp : (List.map Prod.fst st.processing).isEmpty = true
  · rw [if_pos hemp] at h
    simp only [BootRes.mk.injEq, true_and] at h
    rw [← h]
    rfl
  · rw [if_neg hemp] at h
    rw [boot_sweep_workers (List.map Prod.fst st.processing) _ st' h]
    rfl

/-- C3: boot recovery is idempotent — a second run of `manager_on_boot`
on the store produced by a completed first run returns that store
unchanged. -/
theorem C3_boot_idempotent (wid winfo : String) (st st' : Store)
    (h : manager_on_boot wid winfo st = ⟨Except.ok (), st'⟩) :
    manager_on_boot wid winfo st' = ⟨Except.ok (), st'⟩ := by
  have hw := manager_on_boot_ok_workers wid winfo st st' h
  have hp := manager_on_boot_ok_processing wid winfo st st' h
  obtain ⟨w, rq, sc, pr, rs, pd, rc, ru⟩ := st'
  dsimp only at hw hp
  subst hw
  subst hp
  unfold manager_on_boot
  dsimp only
  simp [alRemove, alSet]

/-- Witness for C3 on a concrete (empty) store. -/
theorem C3_boot_idempotent_witness :
    manager_on_boot "w" "i" c3Store' = ⟨Except.ok (), c3Store'⟩ :=
  C3_boot_idempotent "w" "i" c3Store c3Store' rfl

/-- C5: an id crashed mid-flight (present in `wo-processing`, no
`wo-responses` entry) is back in `wo-scheduled` and gone from
`wo-processing` after a completed boot recovery. -/
theorem C5_crashed_id_rescheduled (wid winfo : String) (st : Store)
    (i v : String) (st' : Store)
    (hproc : alGet st.processing i = some v)
    (hresp : alGet st.responses i = none)
    (h : manager_on_boot wid winfo st = ⟨Except.ok (), st'⟩) :
    alGet st'.scheduled i = some "SCHEDULED" ∧
    alGet st'.processing i = none := by
  refine ⟨?_, ?_⟩
  · unfold manager_on_boot at h
    dsimp only at h
    by_cases hemp : (List.map Prod.fst st.processing).isEmpty = true
    · have hnil : st.processing = [] :=
        List.map_eq_nil_iff.mp (List.isEmpty_iff.mp hemp)
      rw [hnil] at hproc
      exact absurd hproc (by simp [alGet])
    · rw [if_neg hemp] at h
      exact boot_sweep_sets (List.map Prod.fst st.processing) _ st' i h
        (alGet_mem_keys st.processing i v hproc) hresp
  · rw [manager_on_boot_ok_processing wid winfo st st' h]
    rfl

/-- Witness for C5 on a concrete crashed store. -/
theorem C5_crashed_id_rescheduled_witness :
    alGet ((manager_on_boot "w" "i" c6Store).store).scheduled "wo3" =
      some "SCHEDULED" ∧
    alGet ((manager_on_boot "w" "i" c6Store).store).processing "wo3" =
      none :=
  C5_crashed_id_rescheduled "w" "i" c6Store "wo3" "PROCESSING"
    (manager_on_boot "w" "i" c6Store).store rfl rfl rfl

/-- C6 counterexample: on a store whose `wo-processing` holds `"wo3"`
with no response, the boot sweep does NOT leave the `wo-processing` entry
in place — after the sweep the id is gone from `wo-processing`
(enclave_manager.py line 157), refuting the claim as stated. -/
theorem C6_counterexample_processing_removed :
    alGet c6Store.processing "wo3" = some "PROCESSING" ∧
    alGet c6Store.responses "wo3" = none ∧
    (manager_on_boot "w" "i" c6Store).out = Except.ok () ∧
    alGet ((manager_on_boot "w" "i" c6Store).store).processing "wo3" =
      none :=
  ⟨rfl, rfl, rfl, rfl⟩

/-- C6 (amended): for an id in `wo-processing` with no `wo-responses`
entry, the per-id sweep step moves the id back to `wo-scheduled` AND also
removes the `wo-processing` entry. -/
theorem C6_reschedule_removes_marker (st : Store) (wo : String)
    (hresp : alGet st.responses wo = none) :
    (boot_step st wo).out = Except.ok () ∧
    alGet ((boot_step st wo).store).scheduled wo = some "SCHEDULED" ∧
    alGet ((boot_step st wo).store).processing wo = none := by
  obtain ⟨h1, h2, h3⟩ := boot_step_noresp st wo hresp
  exact ⟨h1, h2, by rw [h3]; exact alGet_alRemove_self _ _⟩

/-- Witness for the amended C6 on the concrete crashed store. -/
theorem C6_reschedule_removes_marker_witness :
    (boot_step c6Store "wo3").out = Except.ok () ∧
    alGet ((boot_step c6Store "wo3").store).scheduled "wo3" =
      some "SCHEDULED" ∧
    alGet ((boot_step c6Store "wo3").store).processing "wo3" = none :=
  C6_reschedule_removes_marker c6Store "wo3" rfl

end Avalon
